import Mathlib

/-!
Shallow embedding of the AetherOS microkernel core
(src/kernel/microkernel/{capability,scheduler,ipc,memory}.rs) and proofs
about its capability space, scheduler, message queue and memory manager.

Modelling conventions:
* `u64`/`usize` values are `Nat`; subtraction of `u64` values is modelled
  with the wrapping `wrapSub` below (Rust release-mode semantics).  Counter
  increments never approach `2^64` in any statement proved here, so plain
  `Nat` addition is used for them.
* `Vec<T>` used as a stack (push/pop at the end) is modelled as a `List`
  with the top at the head (`push` = cons, `pop` = head): LIFO behaviour
  is preserved exactly.
* `BTreeMap`/`HashMap` are modelled as key-sorted association lists with
  `btLookup`/`btInsert`/`btErase`; only get/insert/remove/entry are used
  by the source, and those are mirrored one for one.
* Fallible operations return `Except Error α × State`: the source methods
  take `&mut self` and return `Result`; the returned state is the value of
  `self` after the call.
* Platform placeholders in the source (`get_current_time`,
  `get_current_cpu`, `get_current_task` in the scheduler/IPC paths) are
  HAL-provided per the spec and are passed as explicit arguments where the
  behaviour depends on them.
-/

namespace AetherOS

/-- Wrapping subtraction of two `u64` values (Rust release semantics). -/
def wrapSub (a b : Nat) : Nat :=
  (a % 2 ^ 64 + (2 ^ 64 - b % 2 ^ 64)) % 2 ^ 64

/-- `b.get(&k)` on a map modelled as an association list. -/
def btLookup {α : Type} (m : List (Nat × α)) (k : Nat) : Option α :=
  (m.find? (fun p => p.1 = k)).map Prod.snd

/-- `b.insert(k, v)`: replace the binding of `k`, or insert it keeping the
list sorted by key (the canonical `BTreeMap` representation). -/
def btInsert {α : Type} (m : List (Nat × α)) (k : Nat) (v : α) : List (Nat × α) :=
  match m with
  | [] => [(k, v)]
  | (k', v') :: rest =>
    if k = k' then (k, v) :: rest
    else if k < k' then (k, v) :: (k', v') :: rest
    else (k', v') :: btInsert rest k v

/-- `b.remove(&k)`. -/
def btErase {α : Type} (m : List (Nat × α)) (k : Nat) : List (Nat × α) :=
  m.filter (fun p => ¬ p.1 = k)

/-- `r.is_err()` for `Result` values. -/
def isErr {ε α : Type} : Except ε α → Bool
  | .error _ => true
  | .ok _ => false

instance {ε α : Type} [DecidableEq ε] [DecidableEq α] : DecidableEq (Except ε α)
  | .error a, .error b =>
    if h : a = b then .isTrue (by rw [h])
    else .isFalse (by intro hh; injection hh; contradiction)
  | .error _, .ok _ => .isFalse (by intro h; injection h)
  | .ok _, .error _ => .isFalse (by intro h; injection h)
  | .ok a, .ok b =>
    if h : a = b then .isTrue (by rw [h])
    else .isFalse (by intro hh; injection hh; contradiction)

/-- Rust's `iter().position(p)`: index of the first element satisfying `p`. -/
def position {α : Type} (p : α → Bool) : List α → Option Nat
  | [] => none
  | x :: xs => if p x then some 0 else (position p xs).map (· + 1)

/-! ## Common type aliases (src/kernel/microkernel/mod.rs) -/

abbrev TaskId := Nat
abbrev MessageId := Nat
abbrev ResourceId := Nat
abbrev CpuMask := Nat
abbrev CapabilityId := Nat

/-! ## Capability space (src/kernel/microkernel/capability.rs) -/

inductive CapabilityType : Type
  | Memory
  | IOPort -- named `IO` in the source
  | IPC
  | Process
  | Device
  | Network
  | FileSystem
  | System
deriving DecidableEq, Repr

structure CapabilityRights : Type where
  read : Bool
  write : Bool
  execute : Bool
  grant : Bool
  revoke : Bool
deriving DecidableEq, Repr

structure Capability : Type where
  id : CapabilityId
  typ : CapabilityType
  rights : CapabilityRights
  resource : ResourceId
  owner : TaskId
deriving DecidableEq, Repr

structure CapabilitySpace : Type where
  capabilities : List Capability
deriving DecidableEq, Repr

inductive CapabilityError : Type
  | InsufficientRights
  | CapabilityNotFound
  | ResourceLimitExceeded
  | InvalidCapability
deriving DecidableEq, Repr

/-- `CapabilitySpace::rights_are_subset` (bitwise: every bit set in
`subset` must be set in `superset`; for Rust `bool`, `!a || b`). -/
def rights_are_subset (sub sup : CapabilityRights) : Bool :=
  (!sub.read || sup.read) &&
  (!sub.write || sup.write) &&
  (!sub.execute || sup.execute) &&
  (!sub.grant || sup.grant) &&
  (!sub.revoke || sup.revoke)

/-- `CapabilitySpace::can_grant`. -/
def CapabilitySpace.can_grant (cs : CapabilitySpace) (cap : Capability) : Bool :=
  cs.capabilities.any fun c =>
    c.typ = cap.typ && c.rights.grant && rights_are_subset cap.rights c.rights

/-- `CapabilitySpace::can_revoke`. -/
def CapabilitySpace.can_revoke (cs : CapabilitySpace) (cap : Capability) : Bool :=
  cs.capabilities.any fun c =>
    c.typ = cap.typ && c.rights.revoke && c.resource = cap.resource

/-- `CapabilitySpace::check_resource_limits` (placeholder in the source:
always `true`). -/
def CapabilitySpace.check_resource_limits (_cs : CapabilitySpace) (_cap : Capability) : Bool :=
  true

/-- `CapabilitySpace::grant`. -/
def CapabilitySpace.grant (cs : CapabilitySpace) (cap : Capability) :
    Except CapabilityError Unit × CapabilitySpace :=
  if ¬ cs.can_grant cap then (.error .InsufficientRights, cs)
  else if ¬ cs.check_resource_limits cap then (.error .ResourceLimitExceeded, cs)
  else (.ok (), ⟨cs.capabilities ++ [cap]⟩)

/-- `CapabilitySpace::revoke`.  The source finds the position of the first
capability with the requested id, checks `can_revoke` on it, and removes
it; absence yields `CapabilityNotFound`. -/
def CapabilitySpace.revoke (cs : CapabilitySpace) (cap_id : CapabilityId) :
    Except CapabilityError Unit × CapabilitySpace :=
  match position (fun c => c.id = cap_id) cs.capabilities with
  | some pos =>
    match cs.capabilities[pos]? with
    | some c =>
      if ¬ cs.can_revoke c then (.error .InsufficientRights, cs)
      else (.ok (), ⟨cs.capabilities.eraseIdx pos⟩)
    | none => (.error .CapabilityNotFound, cs)
  | none => (.error .CapabilityNotFound, cs)

/-- `CapabilitySpace::check`: only the read/write/execute bits are
compared (`cap.rights.read >= rights.read` on Rust `bool` is `!req || held`). -/
def CapabilitySpace.check (cs : CapabilitySpace) (typ : CapabilityType)
    (rights : CapabilityRights) : Bool :=
  cs.capabilities.any fun cap =>
    cap.typ = typ &&
    (!rights.read || cap.rights.read) &&
    (!rights.write || cap.rights.write) &&
    (!rights.execute || cap.rights.execute)

/-- `CapabilitySpace::derive`.  `fresh_id` is the value produced by the
source's `generate_id()` (a global atomic counter), passed explicitly. -/
def CapabilitySpace.derive (cs : CapabilitySpace) (cap_id : CapabilityId)
    (new_rights : CapabilityRights) (fresh_id : CapabilityId) :
    Except CapabilityError Capability :=
  match cs.capabilities.find? (fun c => c.id = cap_id) with
  | some cap =>
    if ¬ rights_are_subset new_rights cap.rights then .error .InsufficientRights
    else .ok ⟨fresh_id, cap.typ, new_rights, cap.resource, cap.owner⟩
  | none => .error .CapabilityNotFound

/-! ## Scheduler (src/kernel/microkernel/scheduler.rs) -/

inductive TaskState : Type
  | Ready
  | Running
  | Blocked
  | Sleeping
  | Terminated
deriving DecidableEq, Repr

inductive Priority : Type
  | Realtime
  | High
  | Normal
  | Low
  | Background
deriving DecidableEq, Repr

/-- The `#[repr(u8)]` discriminant of `Priority` (`Realtime = 0`, …,
`Background = 4`). -/
def Priority.toNat : Priority → Nat
  | .Realtime => 0
  | .High => 1
  | .Normal => 2
  | .Low => 3
  | .Background => 4

structure Task : Type where
  id : TaskId
  state : TaskState
  priority : Priority
  quantum : Nat
  runtime : Nat
  last_run : Nat
  affinity : CpuMask
  capabilities : CapabilitySpace
  last_cpu : Option Nat
  switches : Nat
deriving DecidableEq, Repr

structure SchedulerStats : Type where
  context_switches : Nat
  preemptions : Nat
  total_runtime : Nat
deriving DecidableEq, Repr

structure Scheduler : Type where
  tasks : List Task
  current : Option Task
  time_slice : Nat
  cpu_affinity : List (TaskId × CpuMask)
  realtime_queue : List Task
  stats : SchedulerStats
deriving DecidableEq, Repr

inductive SchedulerError : Type
  | TaskNotFound
  | InvalidState
  | InvalidPriority
  | InvalidAffinity
deriving DecidableEq, Repr

/-- `CACHE_HOT_THRESHOLD` (1ms in microseconds). -/
def CACHE_HOT_THRESHOLD : Nat := 1000000

/-- `Scheduler::new(time_slice)`. -/
def Scheduler.new (time_slice : Nat) : Scheduler :=
  ⟨[], none, time_slice, [], [], ⟨0, 0, 0⟩⟩

/-- `Scheduler::is_cache_hot`, with the platform clock and core id
(`get_current_time`/`get_current_cpu`) passed as `now`/`cpu`. -/
def Scheduler.is_cache_hot (_s : Scheduler) (t : Task) (now cpu : Nat) : Bool :=
  match t.last_cpu with
  | some c => c = cpu && wrapSub now t.last_run < CACHE_HOT_THRESHOLD
  | none => false

/-- `Scheduler::calculate_quantum`.  The source computes
`(base as f64 * priority_factor * history_factor * cache_factor) as u64`;
the factors (0.5/0.75/1.0/1.5/2.0, 0.8/1.2) are modelled as the exact
rationals they denote, and the final `as u64` cast as `floor`.  The
source's `runtime / switches` with `switches == 0` is `f64` infinity,
which compares `< time_slice` as false, hence the explicit 6/5 branch. -/
def Scheduler.calculate_quantum (s : Scheduler) (t : Task) (now cpu : Nat) : Nat :=
  let base : ℚ := s.time_slice
  let priority_factor : ℚ :=
    match t.priority with
    | .Realtime => 1 / 2
    | .High => 3 / 4
    | .Normal => 1
    | .Low => 3 / 2
    | .Background => 2
  let history_factor : ℚ :=
    if t.runtime > 0 then
      if t.switches = 0 then 6 / 5
      else if (t.runtime : ℚ) / (t.switches : ℚ) < (s.time_slice : ℚ) then 4 / 5
      else 6 / 5
    else 1
  let cache_factor : ℚ := if s.is_cache_hot t now cpu then 6 / 5 else 4 / 5
  (base * priority_factor * history_factor * cache_factor).floor.toNat

/-- Modelled from the spec: the source keeps the pool in a
`BinaryHeap<Task>` but never defines `Ord for Task`; the heap's ordering
is therefore missing from src/.  The spec says `schedule` pops "the
highest-priority Ready task" with `Realtime > High > Normal > Low >
Background`, so `BinaryHeap::pop` is modelled as removing the first task
in insertion order holding the numerically smallest priority discriminant
(dispatch order among equal priorities is explicitly unspecified by the
spec; first-inserted is one admissible resolution). -/
def popMax : List Task → Option (Task × List Task)
  | [] => none
  | t :: ts =>
    match popMax ts with
    | none => some (t, [])
    | some (m, rest) =>
      if t.priority.toNat ≤ m.priority.toNat then some (t, ts)
      else some (m, t :: rest)

/-- The dispatch step at the end of `Scheduler::schedule`'s pop loop:
compute the quantum, mark Running, stamp time/CPU, bump counters. -/
def Scheduler.dispatch (s : Scheduler) (t : Task) (rest : List Task) (now cpu : Nat) :
    Option Task × Scheduler :=
  let t' : Task :=
    { t with
      quantum := s.calculate_quantum t now cpu
      state := .Running
      last_run := now
      last_cpu := some cpu
      switches := t.switches + 1 }
  (some t',
   { s with
     tasks := rest
     current := some t'
     stats := { s.stats with context_switches := s.stats.context_switches + 1 } })

/-- The `while let Some(next_task) = self.tasks.pop()` loop of
`Scheduler::schedule`.  Non-Ready tasks are popped and dropped; a Ready
task whose affinity mask excludes `cpu` is pushed back and the scan
continues (in the source this re-pops the same task forever — the spec's
§9 notes the unbounded rescan; the fuel bound makes the model total and
is never reached in any theorem below). -/
def Scheduler.schedLoop (now cpu : Nat) : Nat → Scheduler → Option Task × Scheduler
  | 0, s => (none, s)
  | fuel + 1, s =>
    match popMax s.tasks with
    | none => (none, s)
    | some (t, rest) =>
      if t.state = .Ready then
        match btLookup s.cpu_affinity t.id with
        | some mask =>
          if mask &&& (1 <<< cpu) = 0 then
            Scheduler.schedLoop now cpu fuel { s with tasks := rest ++ [t] }
          else Scheduler.dispatch { s with tasks := rest } t rest now cpu
        | none => Scheduler.dispatch { s with tasks := rest } t rest now cpu
      else Scheduler.schedLoop now cpu fuel { s with tasks := rest }

/-- `Scheduler::schedule`, with the platform clock and core id passed as
`now`/`cpu`.  Note `self.current.take()` empties `current` even on the
keep-running early return, exactly as the source does. -/
def Scheduler.schedule (s : Scheduler) (now cpu : Nat) : Option Task × Scheduler :=
  match s.realtime_queue with
  | t :: rts =>
    (some t,
     { s with
       realtime_queue := rts
       stats := { s.stats with context_switches := s.stats.context_switches + 1 } })
  | [] =>
    match s.current with
    | some task =>
      if task.state = .Running then
        let elapsed := wrapSub now task.last_run
        let task' := { task with runtime := task.runtime + elapsed }
        let s1 :=
          { s with
            current := none
            stats := { s.stats with total_runtime := s.stats.total_runtime + elapsed } }
        if task.quantum ≤ elapsed then
          let s2 :=
            { s1 with
              tasks := s1.tasks ++ [{ task' with state := .Ready }]
              stats := { s1.stats with preemptions := s1.stats.preemptions + 1 } }
          Scheduler.schedLoop now cpu s2.tasks.length s2
        else (some task', s1)
      else Scheduler.schedLoop now cpu s.tasks.length { s with current := none }
    | none => Scheduler.schedLoop now cpu s.tasks.length s

/-- `Scheduler::add_task`: reset transient fields, insert as Ready. -/
def Scheduler.add_task (s : Scheduler) (task : Task) :
    Except SchedulerError Unit × Scheduler :=
  let task' :=
    { task with
      state := .Ready
      last_run := 0
      runtime := 0
      last_cpu := none
      switches := 0 }
  (.ok (), { s with tasks := s.tasks ++ [task'] })

/-- `find_task_mut` followed by an in-place update: modify the first task
in the pool with the given id. -/
def updateTask (ts : List Task) (task_id : TaskId) (f : Task → Task) : List Task :=
  match ts with
  | [] => []
  | t :: rest =>
    if t.id = task_id then f t :: rest else t :: updateTask rest task_id f

/-- `Scheduler::block_task`. -/
def Scheduler.block_task (s : Scheduler) (task_id : TaskId) :
    Except SchedulerError Unit × Scheduler :=
  match s.tasks.find? (fun t => t.id = task_id) with
  | some _ =>
    (.ok (), { s with tasks := updateTask s.tasks task_id (fun t => { t with state := .Blocked }) })
  | none => (.error .TaskNotFound, s)

/-- `Scheduler::wake_task`. -/
def Scheduler.wake_task (s : Scheduler) (task_id : TaskId) :
    Except SchedulerError Unit × Scheduler :=
  match s.tasks.find? (fun t => t.id = task_id) with
  | some t =>
    if t.state = .Blocked then
      (.ok (), { s with tasks := updateTask s.tasks task_id (fun u => { u with state := .Ready }) })
    else (.error .InvalidState, s)
  | none => (.error .TaskNotFound, s)

/-- `Scheduler::set_priority`. -/
def Scheduler.set_priority (s : Scheduler) (task_id : TaskId) (priority : Priority) :
    Except SchedulerError Unit × Scheduler :=
  match s.tasks.find? (fun t => t.id = task_id) with
  | some _ =>
    (.ok (), { s with tasks := updateTask s.tasks task_id (fun t => { t with priority := priority }) })
  | none => (.error .TaskNotFound, s)

/-- `Scheduler::set_affinity`. -/
def Scheduler.set_affinity (s : Scheduler) (task_id : TaskId) (affinity : CpuMask) :
    Except SchedulerError Unit × Scheduler :=
  match s.tasks.find? (fun t => t.id = task_id) with
  | some _ =>
    (.ok (),
     { s with
       tasks := updateTask s.tasks task_id (fun t => { t with affinity := affinity })
       cpu_affinity := btInsert s.cpu_affinity task_id affinity })
  | none => (.error .TaskNotFound, s)

/-! ## Message queue (src/kernel/microkernel/ipc.rs) -/

inductive MessageType : Type
  | Signal
  | Data
  | SharedMem
  | Stream
deriving DecidableEq, Repr

structure MessageFlags : Type where
  priority : Nat
  nonblocking : Bool
  zero_copy : Bool
deriving DecidableEq, Repr

/-- `Message`; `data` is `Option<*const u8>` with the pointer value as a
`Nat` address. -/
structure Message : Type where
  id : MessageId
  typ : MessageType
  sender : TaskId
  receiver : TaskId
  data : Option Nat
  size : Nat
  flags : MessageFlags
deriving DecidableEq, Repr

structure SharedBuffer : Type where
  data : Nat
  size : Nat
  refcount : Nat
deriving DecidableEq, Repr

structure IPCStats : Type where
  messages_sent : Nat
  messages_received : Nat
  total_bytes : Nat
deriving DecidableEq, Repr

structure MessageQueue : Type where
  capacity : Nat
  queues : List (TaskId × List Message)
  shared_buffers : List (MessageId × SharedBuffer)
  stats : IPCStats
deriving DecidableEq, Repr

inductive IPCError : Type
  | QueueFull
  | NoMessages
  | InvalidReceiver
  | Timeout
  | ZeroCopyFailed
deriving DecidableEq, Repr

/-- `MessageQueue::new(capacity)`. -/
def MessageQueue.new (capacity : Nat) : MessageQueue :=
  ⟨capacity, [], [], ⟨0, 0, 0⟩⟩

/-- `MessageQueue::send_signal`: push to the *front* of the receiver's
mailbox, no capacity check, bump the sent counter. -/
def MessageQueue.send_signal (q : MessageQueue) (msg : Message) :
    Except IPCError Unit × MessageQueue :=
  let mbox := (btLookup q.queues msg.receiver).getD []
  (.ok (),
   { q with
     queues := btInsert q.queues msg.receiver (msg :: mbox)
     stats := { q.stats with messages_sent := q.stats.messages_sent + 1 } })

/-- `MessageQueue::send`.  Note the source's
`self.queues.entry(msg.receiver).or_insert_with(VecDeque::new)` runs
*before* the capacity check, so a previously unknown receiver gains an
empty mailbox even on the `QueueFull` error path. -/
def MessageQueue.send (q : MessageQueue) (msg : Message) :
    Except IPCError Unit × MessageQueue :=
  if msg.typ = .Signal then q.send_signal msg
  else
    let mbox := (btLookup q.queues msg.receiver).getD []
    let queues1 :=
      if (btLookup q.queues msg.receiver).isSome then q.queues
      else btInsert q.queues msg.receiver []
    if q.capacity ≤ mbox.length ∧ msg.flags.nonblocking = false then
      (.error .QueueFull, { q with queues := queues1 })
    else
      let sb :=
        if msg.flags.zero_copy then
          match msg.data with
          | some d => btInsert q.shared_buffers msg.id ⟨d, msg.size, 1⟩
          | none => q.shared_buffers
        else q.shared_buffers
      (.ok (),
       { q with
         queues := btInsert queues1 msg.receiver (mbox ++ [msg])
         shared_buffers := sb
         stats :=
           { q.stats with
             messages_sent := q.stats.messages_sent + 1
             total_bytes := q.stats.total_bytes + msg.size } })

/-- `MessageQueue::try_receive`: clone the front of the current task's
mailbox *without removing it* (the method takes `&self`). -/
def MessageQueue.try_receive (q : MessageQueue) (current : TaskId) : Option Message :=
  (btLookup q.queues current).bind List.head?

/-- `MessageQueue::wait_for_message`: poll `try_receive` until the
HAL-provided monotonic clock passes `timeout` (spec §6: the clock is
external; it eventually exceeds any bound).  `self` is taken immutably,
so the state cannot change across the loop: the first poll's outcome is
the loop's outcome, and a returned message is *not* removed. -/
def MessageQueue.wait_for_message (q : MessageQueue) (current : TaskId) (timeout : Nat) :
    Except IPCError Message × MessageQueue :=
  if timeout = 0 then (.error .Timeout, q)
  else
    match q.try_receive current with
    | some m => (.ok m, q)
    | none => (.error .Timeout, q)

/-- `MessageQueue::receive`, with `get_current_task()` (undefined in the
IPC source file; HAL-provided per spec §6) passed as `current`. -/
def MessageQueue.receive (q : MessageQueue) (current : TaskId) (timeout : Nat) :
    Except IPCError Message × MessageQueue :=
  match btLookup q.queues current with
  | none => (.error .NoMessages, q)
  | some mbox =>
    match mbox with
    | msg :: rest =>
      let sb :=
        if msg.flags.zero_copy then
          match btLookup q.shared_buffers msg.id with
          | some buf =>
            if buf.refcount = 1 then btErase q.shared_buffers msg.id
            else btInsert q.shared_buffers msg.id { buf with refcount := buf.refcount - 1 }
          | none => q.shared_buffers
        else q.shared_buffers
      (.ok msg,
       { q with
         queues := btInsert q.queues current rest
         shared_buffers := sb
         stats := { q.stats with messages_received := q.stats.messages_received + 1 } })
    | [] =>
      if timeout = 0 then (.error .NoMessages, q)
      else q.wait_for_message current timeout

/-! ## Memory manager (src/kernel/microkernel/memory.rs) -/

inductive RegionType : Type
  | Code
  | Data
  | Stack
  | Shared
  | Device
  | Kernel
deriving DecidableEq, Repr

structure ProtectionFlags : Type where
  read : Bool
  write : Bool
  execute : Bool
  user : Bool
  cached : Bool
  prefetch : Bool
  huge : Bool
deriving DecidableEq, Repr

/-- `MemoryRegion`; `start` is the `*mut u8` pointer value as a `Nat`
address, and the two `AtomicU64` tracking counters are plain `Nat`s. -/
structure MemoryRegion : Type where
  start : Nat
  size : Nat
  typ : RegionType
  flags : ProtectionFlags
  owner : TaskId
  access_count : Nat
  last_access : Nat
deriving DecidableEq, Repr

structure FreeList : Type where
  size : Nat
  pages : List Nat
deriving DecidableEq, Repr

structure MemoryManager : Type where
  regions : List MemoryRegion
  page_size : Nat
  free_lists : List FreeList
  huge_pages : List (Nat × List Nat)
  cache : List (Nat × Nat)
  hot_regions : List Nat
  preallocated : List Nat
deriving DecidableEq, Repr

inductive MemoryError : Type
  | OutOfMemory
  | RegionNotFound
  | InvalidRegionType
  | InvalidAddress
  | InvalidFlags
  | MappingFailed
deriving DecidableEq, Repr

/-- `MIN_HUGE_PAGE_SIZE` / `HUGE_PAGE_SIZE` (both 2MB in the source). -/
def HUGE_PAGE_SIZE : Nat := 2 * 1024 * 1024

def MIN_HUGE_PAGE_SIZE : Nat := 2 * 1024 * 1024

/-- Free function `align_up(addr, align)`:
`(addr + align - 1) & !(align - 1)` on `u64`/`usize` (the complement
`!(align - 1)` is `2^64 - align`). -/
def align_up (addr align : Nat) : Nat :=
  ((addr + align - 1) % 2 ^ 64) &&& ((2 ^ 64 - align) % 2 ^ 64)

/-- Method `MemoryManager::align_up` (same formula, `self.page_size`). -/
def MemoryManager.align_up (mm : MemoryManager) (size : Nat) : Nat :=
  AetherOS.align_up size mm.page_size

/-- `get_current_task()` (placeholder in the source: `TaskId(0)`). -/
def get_current_task : TaskId := 0

/-- `MemoryManager::new(page_size)`: the five size-classed free lists,
everything else empty.  `preallocate_pages` is a no-op because
`allocate_raw_page` is a placeholder returning `None`. -/
def MemoryManager.new (page_size : Nat) : MemoryManager :=
  { regions := []
    page_size := page_size
    free_lists :=
      [⟨4096, []⟩, ⟨16384, []⟩, ⟨65536, []⟩, ⟨262144, []⟩, ⟨1048576, []⟩]
    huge_pages := []
    cache := []
    hot_regions := []
    preallocated := [] }

/-- The type-driven flag rewriting at the top of `MemoryManager::allocate`. -/
def applyTypeHints (typ : RegionType) (size : Nat) (flags : ProtectionFlags) :
    ProtectionFlags :=
  match typ with
  | .Code => { flags with prefetch := true, huge := MIN_HUGE_PAGE_SIZE ≤ size }
  | .Stack => { flags with prefetch := true, huge := true }
  | .Kernel => { flags with prefetch := true, huge := true }
  | .Device => { flags with cached := false, prefetch := false }
  | _ => flags

/-- `MemoryManager::allocate_from_free_list`: find the first bucket whose
class size covers the request, pop a page from it (no mutation if its
pool is empty), and record the hit in the LRU cache. -/
def MemoryManager.allocate_from_free_list (mm : MemoryManager) (size : Nat) :
    Option (Nat × MemoryManager) :=
  match position (fun l => size ≤ l.size) mm.free_lists with
  | none => none
  | some i =>
    match mm.free_lists[i]? with
    | none => none
    | some l =>
      match l.pages with
      | [] => none
      | p :: rest =>
        some (p,
          { mm with
            free_lists := mm.free_lists.set i { l with pages := rest }
            cache := btInsert mm.cache size p })

/-- `MemoryManager::allocate_huge_page`. -/
def MemoryManager.allocate_huge_page (mm : MemoryManager) (size : Nat) :
    Option (Nat × MemoryManager) :=
  let aligned_size := AetherOS.align_up size HUGE_PAGE_SIZE
  match btLookup mm.huge_pages aligned_size with
  | none => none
  | some pages =>
    match pages with
    | [] => none
    | p :: rest =>
      some (p, { mm with huge_pages := btInsert mm.huge_pages aligned_size rest })

/-- `MemoryManager::find_free_region` (placeholder in the source: `None`). -/
def MemoryManager.find_free_region (_mm : MemoryManager) (_size : Nat) : Option Nat :=
  none

/-- `MemoryManager::create_region`: build the record with the *unrounded*
size, perform the (placeholder, always-`Ok`) type-specific mapping, and
track it. -/
def MemoryManager.create_region (mm : MemoryManager) (addr size : Nat)
    (typ : RegionType) (flags : ProtectionFlags) :
    Except MemoryError MemoryRegion × MemoryManager :=
  let region : MemoryRegion := ⟨addr, size, typ, flags, get_current_task, 0, 0⟩
  (.ok region, { mm with regions := mm.regions ++ [region] })

/-- `MemoryManager::allocate`: type hints, then pre-warmed pool, free
list, huge-page pool, general search, in that order; `OutOfMemory` when
every source fails.  Note that no path rounds `size`. -/
def MemoryManager.allocate (mm : MemoryManager) (size : Nat) (typ : RegionType)
    (flags0 : ProtectionFlags) : Except MemoryError MemoryRegion × MemoryManager :=
  let flags := applyTypeHints typ size flags0
  match (if size ≤ mm.page_size then mm.preallocated.head? else none) with
  | some addr =>
    MemoryManager.create_region { mm with preallocated := mm.preallocated.tail } addr size typ flags
  | none =>
    match mm.allocate_from_free_list size with
    | some (addr, mm1) => mm1.create_region addr size typ flags
    | none =>
      match (if HUGE_PAGE_SIZE ≤ size then mm.allocate_huge_page size else none) with
      | some (addr, mm2) => mm2.create_region addr size typ flags
      | none =>
        match mm.find_free_region size with
        | some addr => mm.create_region addr size typ flags
        | none => (.error .OutOfMemory, mm)

/-- `MemoryManager::free`: exact-size free-list bucket first, then the
huge-page pool, then removal from the tracked-region list (with the
placeholder, always-`Ok` unmap); `RegionNotFound` otherwise. -/
def MemoryManager.free (mm : MemoryManager) (region : MemoryRegion) :
    Except MemoryError Unit × MemoryManager :=
  match position (fun l => l.size = region.size) mm.free_lists with
  | some i =>
    match mm.free_lists[i]? with
    | none => (.error .RegionNotFound, mm)
    | some l =>
      (.ok (), { mm with free_lists := mm.free_lists.set i { l with pages := region.start :: l.pages } })
  | none =>
    if HUGE_PAGE_SIZE ≤ region.size then
      let aligned_size := AetherOS.align_up region.size HUGE_PAGE_SIZE
      let pool := (btLookup mm.huge_pages aligned_size).getD []
      (.ok (), { mm with huge_pages := btInsert mm.huge_pages aligned_size (region.start :: pool) })
    else
      match position (fun r => r.start = region.start) mm.regions with
      | some pos => (.ok (), { mm with regions := mm.regions.eraseIdx pos })
      | none => (.error .RegionNotFound, mm)

/-- `MemoryManager::share`. -/
def MemoryManager.share (mm : MemoryManager) (region : MemoryRegion)
    (target : TaskId) (flags : ProtectionFlags) :
    Except MemoryError MemoryRegion × MemoryManager :=
  if ¬ mm.regions.any (fun r => r.start = region.start) then
    (.error .RegionNotFound, mm)
  else if region.typ ≠ RegionType.Shared then
    (.error .InvalidRegionType, mm)
  else
    let shared_region : MemoryRegion :=
      ⟨region.start, region.size, .Shared, flags, target, 0, 0⟩
    (.ok shared_region, { mm with regions := mm.regions ++ [shared_region] })

/-- `MemoryManager::map_device`: page-align the size (the one place that
rounds), build a Device region at the caller's physical address. -/
def MemoryManager.map_device (mm : MemoryManager) (phys_addr size : Nat)
    (flags : ProtectionFlags) : Except MemoryError MemoryRegion × MemoryManager :=
  let aligned_size := mm.align_up size
  let region : MemoryRegion := ⟨phys_addr, aligned_size, .Device, flags, get_current_task, 0, 0⟩
  (.ok region, { mm with regions := mm.regions ++ [region] })

/-! ## Helper lemmas -/

/-- Rust `a >= b` on `bool` (i.e. `!a || b`) is implication. -/
theorem bool_ge_iff (a b : Bool) : (!a || b) = true ↔ (a = true → b = true) := by
  cases a <;> cases b <;> decide

/-- `rights_are_subset` is the bitwise five-way implication. -/
theorem rights_are_subset_iff (R S : CapabilityRights) :
    rights_are_subset R S = true ↔
      ((R.read = true → S.read = true) ∧ (R.write = true → S.write = true) ∧
       (R.execute = true → S.execute = true) ∧ (R.grant = true → S.grant = true) ∧
       (R.revoke = true → S.revoke = true)) := by
  simp only [rights_are_subset, Bool.and_eq_true, bool_ge_iff]
  tauto

theorem btLookup_insert {α : Type} (m : List (Nat × α)) (k : Nat) (v : α) :
    btLookup (btInsert m k v) k = some v := by
  induction m with
  | nil => simp [btInsert, btLookup]
  | cons p rest ih =>
    rcases p with ⟨k', v'⟩
    simp only [btInsert]
    split_ifs with h1 h2
    · simp [btLookup]
    · simp [btLookup]
    · have hk : ¬ (k' = k) := fun h => h1 h.symm
      simpa [btLookup, List.find?_cons, hk] using ih

theorem find?_none_position {α : Type} (p : α → Bool) (l : List α)
    (h : l.find? p = none) : position p l = none := by
  induction l with
  | nil => rfl
  | cons x xs ih =>
    cases hpx : p x with
    | true => rw [List.find?_cons_of_pos _ hpx] at h; exact absurd h (by simp)
    | false =>
      rw [List.find?_cons_of_neg _ (by simp [hpx])] at h
      simp [position, hpx, ih h]

theorem find?_some_position {α : Type} (p : α → Bool) (l : List α) (x : α)
    (h : l.find? p = some x) : ∃ i, position p l = some i ∧ l.get? i = some x := by
  induction l with
  | nil => simp at h
  | cons y ys ih =>
    cases hpy : p y with
    | true =>
      rw [List.find?_cons_of_pos _ hpy] at h
      exact ⟨0, by simp [position, hpy], by simpa using h⟩
    | false =>
      rw [List.find?_cons_of_neg _ (by simp [hpy])] at h
      obtain ⟨i, h1, h2⟩ := ih h
      exact ⟨i + 1, by simp [position, hpy, h1], by simpa using h2⟩

/-! ## Claim C1 -/

/-- C1 (claim as stated is false): `MessageQueue::send` on a queue of
capacity 0 returns `QueueFull` yet has *mutated* the mailbox map — the
`entry(..).or_insert_with(..)` before the capacity check inserted an
empty mailbox for the previously unknown receiver. -/
theorem C1_counterexample :
    isErr (MessageQueue.send ⟨0, [], [], ⟨0, 0, 0⟩⟩
      ⟨0, .Data, 1, 2, none, 0, ⟨0, false, false⟩⟩).fst = true ∧
    ¬ (MessageQueue.send ⟨0, [], [], ⟨0, 0, 0⟩⟩
      ⟨0, .Data, 1, 2, none, 0, ⟨0, false, false⟩⟩).snd.queues = [] := by
  decide

/-- C1 (amended): every public operation that returns an error leaves the
component's state exactly as before the call, with the single exception
of `MessageQueue::send`, whose `QueueFull` path may have inserted an
empty mailbox for a previously unknown receiver (its counters, shared
buffers and all existing mailboxes are still untouched).
`CapabilitySpace::derive` takes `&self` and cannot mutate, so it has no
state conjunct. -/
theorem C1_amended :
    (∀ (cs : CapabilitySpace) (cap : Capability),
      isErr (cs.grant cap).fst = true → (cs.grant cap).snd = cs) ∧
    (∀ (cs : CapabilitySpace) (cap_id : CapabilityId),
      isErr (cs.revoke cap_id).fst = true → (cs.revoke cap_id).snd = cs) ∧
    (∀ (s : Scheduler) (tid : TaskId),
      isErr (s.block_task tid).fst = true → (s.block_task tid).snd = s) ∧
    (∀ (s : Scheduler) (tid : TaskId),
      isErr (s.wake_task tid).fst = true → (s.wake_task tid).snd = s) ∧
    (∀ (s : Scheduler) (tid : TaskId) (p : Priority),
      isErr (s.set_priority tid p).fst = true → (s.set_priority tid p).snd = s) ∧
    (∀ (s : Scheduler) (tid : TaskId) (a : CpuMask),
      isErr (s.set_affinity tid a).fst = true → (s.set_affinity tid a).snd = s) ∧
    (∀ (q : MessageQueue) (c : TaskId) (t : Nat),
      isErr (q.receive c t).fst = true → (q.receive c t).snd = q) ∧
    (∀ (q : MessageQueue) (msg : Message),
      isErr (q.send msg).fst = true →
        (q.send msg).snd.capacity = q.capacity ∧
        (q.send msg).snd.shared_buffers = q.shared_buffers ∧
        (q.send msg).snd.stats = q.stats ∧
        ((q.send msg).snd.queues = q.queues ∨
         (btLookup q.queues msg.receiver = none ∧
          (q.send msg).snd.queues = btInsert q.queues msg.receiver []))) ∧
    (∀ (mm : MemoryManager) (size : Nat) (typ : RegionType) (fl : ProtectionFlags),
      isErr (mm.allocate size typ fl).fst = true → (mm.allocate size typ fl).snd = mm) ∧
    (∀ (mm : MemoryManager) (r : MemoryRegion),
      isErr (mm.free r).fst = true → (mm.free r).snd = mm) ∧
    (∀ (mm : MemoryManager) (r : MemoryRegion) (t : TaskId) (fl : ProtectionFlags),
      isErr (mm.share r t fl).fst = true → (mm.share r t fl).snd = mm) ∧
    (∀ (mm : MemoryManager) (pa size : Nat) (fl : ProtectionFlags),
      isErr (mm.map_device pa size fl).fst = true → (mm.map_device pa size fl).snd = mm) := by
  refine ⟨?_, ?_, ?_, ?_, ?_, ?_, ?_, ?_, ?_, ?_, ?_, ?_⟩
  · intro cs cap h
    by_cases h1 : cs.can_grant cap
    · simp [CapabilitySpace.grant, h1, CapabilitySpace.check_resource_limits, isErr] at h
    · simp [CapabilitySpace.grant, h1]
  · intro cs cap_id h
    cases h1 : position (fun c => c.id = cap_id) cs.capabilities with
    | none => simp [CapabilitySpace.revoke, h1]
    | some pos =>
      cases h2 : cs.capabilities[pos]? with
      | none => simp [CapabilitySpace.revoke, h1, h2]
      | some c =>
        by_cases h3 : cs.can_revoke c
        · simp [CapabilitySpace.revoke, h1, h2, h3, isErr] at h
        · simp [CapabilitySpace.revoke, h1, h2, h3]
  · intro s tid h
    cases h1 : s.tasks.find? (fun t => t.id = tid) with
    | none => simp [Scheduler.block_task, h1]
    | some t => simp [Scheduler.block_task, h1, isErr] at h
  · intro s tid h
    cases h1 : s.tasks.find? (fun t => t.id = tid) with
    | none => simp [Scheduler.wake_task, h1]
    | some t =>
      by_cases h2 : t.state = TaskState.Blocked
      · simp [Scheduler.wake_task, h1, h2, isErr] at h
      · simp [Scheduler.wake_task, h1, h2]
  · intro s tid p h
    cases h1 : s.tasks.find? (fun t => t.id = tid) with
    | none => simp [Scheduler.set_priority, h1]
    | some t => simp [Scheduler.set_priority, h1, isErr] at h
  · intro s tid a h
    cases h1 : s.tasks.find? (fun t => t.id = tid) with
    | none => simp [Scheduler.set_affinity, h1]
    | some t => simp [Scheduler.set_affinity, h1, isErr] at h
  · intro q c t h
    cases hq : btLookup q.queues c with
    | none => simp [MessageQueue.receive, hq]
    | some mbox =>
      cases mbox with
      | cons m rest => simp [MessageQueue.receive, hq, isErr] at h
      | nil =>
        have htr : q.try_receive c = none := by simp [MessageQueue.try_receive, hq]
        by_cases ht : t = 0
        · simp [MessageQueue.receive, hq, ht]
        · simp [MessageQueue.receive, hq, ht, MessageQueue.wait_for_message, htr]
  · intro q msg h
    by_cases hsig : msg.typ = MessageType.Signal
    · simp [MessageQueue.send, hsig, MessageQueue.send_signal, isErr] at h
    · by_cases hcap : q.capacity ≤ ((btLookup q.queues msg.receiver).getD []).length ∧
        msg.flags.nonblocking = false
      · have hs : q.send msg =
            (.error .QueueFull,
             { q with
               queues :=
                 if (btLookup q.queues msg.receiver).isSome then q.queues
                 else btInsert q.queues msg.receiver [] }) := by
          simp [MessageQueue.send, hsig, hcap]
        rw [hs]
        refine ⟨rfl, rfl, rfl, ?_⟩
        by_cases hm : (btLookup q.queues msg.receiver).isSome
        · left; simp [hm]
        · right
          rw [Option.not_isSome_iff_eq_none] at hm
          simp [hm]
      · simp [MessageQueue.send, hsig, hcap, isErr] at h
  · intro mm size typ fl h
    simp only [MemoryManager.allocate] at h ⊢
    cases h1 : (if size ≤ mm.page_size then mm.preallocated.head? else none) with
    | some addr => simp [h1, MemoryManager.create_region, isErr] at h
    | none =>
      simp only [h1] at h ⊢
      cases h2 : mm.allocate_from_free_list size with
      | some pr => simp [h2, MemoryManager.create_region, isErr] at h
      | none =>
        simp only [h2] at h ⊢
        cases h3 : (if HUGE_PAGE_SIZE ≤ size then mm.allocate_huge_page size else none) with
        | some pr => simp [h3, MemoryManager.create_region, isErr] at h
        | none => simp [h3, MemoryManager.find_free_region]
  · intro mm r h
    simp only [MemoryManager.free] at h ⊢
    cases h1 : position (fun l => l.size = r.size) mm.free_lists with
    | some i =>
      simp only [h1] at h ⊢
      cases h2 : mm.free_lists[i]? with
      | some l => simp [h2, isErr] at h
      | none => simp [h2]
    | none =>
      simp only [h1] at h ⊢
      by_cases hh : HUGE_PAGE_SIZE ≤ r.size
      · simp [hh, isErr] at h
      · simp only [if_neg hh] at h ⊢
        cases h3 : position (fun x => x.start = r.start) mm.regions with
        | some pos => simp [h3, isErr] at h
        | none => simp [h3]
  · intro mm r t fl h
    by_cases h1 : (mm.regions.any fun x => x.start = r.start) = true
    · by_cases h2 : r.typ = RegionType.Shared
      · simp [MemoryManager.share, h1, h2, isErr] at h
      · simp [MemoryManager.share, h1, h2]
    · simp [MemoryManager.share, h1]
  · intro mm pa size fl h
    simp [MemoryManager.map_device, isErr] at h

/-- C1 (amended) witness: grant on an empty space fails with
`InsufficientRights` and leaves the space unchanged. -/
theorem C1_amended_witness :
    isErr ((⟨[]⟩ : CapabilitySpace).grant ⟨1, .Memory, ⟨true, false, false, false, false⟩, 0, 0⟩).fst = true ∧
    ((⟨[]⟩ : CapabilitySpace).grant ⟨1, .Memory, ⟨true, false, false, false, false⟩, 0, 0⟩).snd = ⟨[]⟩ :=
  ⟨by decide, C1_amended.1 ⟨[]⟩ ⟨1, .Memory, ⟨true, false, false, false, false⟩, 0, 0⟩ (by decide)⟩


/-! ## Claim C2 -/

/-- C2 (claim as stated is false): with a Realtime task Ready in the pool
(exactly as `add_task` leaves it — the dedicated realtime queue is never
populated by `add_task`) and a Normal-priority task currently Running
with unexpired quantum, `schedule()` returns the Normal task. -/
theorem C2_counterexample :
    (Scheduler.schedule
      ⟨[⟨1, .Ready, .Realtime, 0, 0, 0, 0, ⟨[]⟩, none, 0⟩],
       some ⟨2, .Running, .Normal, 1000, 0, 0, 0, ⟨[]⟩, none, 0⟩,
       100, [], [], ⟨0, 0, 0⟩⟩ 0 0).fst =
      some ⟨2, .Running, .Normal, 1000, 0, 0, 0, ⟨[]⟩, none, 0⟩ ∧
    (Priority.Normal ≠ .Realtime) ∧
    (⟨1, .Ready, .Realtime, 0, 0, 0, 0, ⟨[]⟩, none, 0⟩ : Task) ∈
      (⟨[⟨1, .Ready, .Realtime, 0, 0, 0, 0, ⟨[]⟩, none, 0⟩],
        some ⟨2, .Running, .Normal, 1000, 0, 0, 0, ⟨[]⟩, none, 0⟩,
        100, [], [], ⟨0, 0, 0⟩⟩ : Scheduler).tasks := by
  decide

/-! ## Claim C3 -/

/-- C3: `derive(cap_id, R)` succeeds iff every right bit set in `R` is
set in the source capability's rights; on success the result carries
rights exactly `R`, the same type/resource/owner, and the freshly
generated id; it fails with `CapabilityNotFound` when no held capability
has id `cap_id`. -/
theorem C3_derive_spec :
    ∀ (cs : CapabilitySpace) (cap_id : CapabilityId) (R : CapabilityRights)
      (n : CapabilityId),
    (∀ S : CapabilityRights, rights_are_subset R S = true ↔
      ((R.read = true → S.read = true) ∧ (R.write = true → S.write = true) ∧
       (R.execute = true → S.execute = true) ∧ (R.grant = true → S.grant = true) ∧
       (R.revoke = true → S.revoke = true))) ∧
    (cs.capabilities.find? (fun c => c.id = cap_id) = none →
      cs.derive cap_id R n = .error .CapabilityNotFound) ∧
    (∀ cap, cs.capabilities.find? (fun c => c.id = cap_id) = some cap →
      ((cs.derive cap_id R n = .ok ⟨n, cap.typ, R, cap.resource, cap.owner⟩) ↔
        rights_are_subset R cap.rights = true) ∧
      (rights_are_subset R cap.rights = false →
        cs.derive cap_id R n = .error .InsufficientRights)) := by
  intro cs cap_id R n
  refine ⟨fun S => rights_are_subset_iff R S, ?_, ?_⟩
  · intro h
    simp [CapabilitySpace.derive, h]
  · intro cap h
    constructor
    · by_cases hs : rights_are_subset R cap.rights = true
      · simp [CapabilitySpace.derive, h, hs]
      · simp [CapabilitySpace.derive, h, hs]
    · intro hs
      simp [CapabilitySpace.derive, h, hs]

/-- C3 witness: deriving read-only rights from a held read/write/grant
Memory capability succeeds with exactly the requested rights. -/
theorem C3_witness :
    CapabilitySpace.derive ⟨[⟨3, .Memory, ⟨true, true, false, true, false⟩, 9, 4⟩]⟩
      3 ⟨true, false, false, false, false⟩ 77 =
      .ok ⟨77, .Memory, ⟨true, false, false, false, false⟩, 9, 4⟩ := by
  have h := (C3_derive_spec ⟨[⟨3, .Memory, ⟨true, true, false, true, false⟩, 9, 4⟩]⟩
    3 ⟨true, false, false, false, false⟩ 77).2.2
    ⟨3, .Memory, ⟨true, true, false, true, false⟩, 9, 4⟩ (by decide)
  exact h.1.mpr (by decide)

/-! ## Claim C4 -/

/-- C4 (claim as stated is false): on an empty capability space no held
capability carries the revoke bit, yet `revoke(5)` fails with
`CapabilityNotFound`, not `InsufficientRights` — the not-found check runs
first. -/
theorem C4_counterexample :
    CapabilitySpace.revoke ⟨[]⟩ 5 = (.error .CapabilityNotFound, ⟨[]⟩) ∧
    CapabilityError.CapabilityNotFound ≠ CapabilityError.InsufficientRights := by
  decide

/-- C4 (amended): when a capability with id `cap_id` *is* held but no
held capability of its type and resource carries the revoke bit, `revoke`
fails with `InsufficientRights`; when no capability with id `cap_id` is
held it fails with `CapabilityNotFound` instead. -/
theorem C4_amended :
    ∀ (cs : CapabilitySpace) (cap_id : CapabilityId),
    (∀ cap, cs.capabilities.find? (fun c => c.id = cap_id) = some cap →
      (∀ c ∈ cs.capabilities,
        ¬ (c.typ = cap.typ ∧ c.rights.revoke = true ∧ c.resource = cap.resource)) →
      cs.revoke cap_id = (.error .InsufficientRights, cs)) ∧
    (cs.capabilities.find? (fun c => c.id = cap_id) = none →
      cs.revoke cap_id = (.error .CapabilityNotFound, cs)) := by
  intro cs cap_id
  constructor
  · intro cap hfind hno
    obtain ⟨i, hpos, hget⟩ := find?_some_position _ _ _ hfind
    have hcr : cs.can_revoke cap = false := by
      rw [← Bool.not_eq_true]
      intro hcr
      rw [CapabilitySpace.can_revoke, List.any_eq_true] at hcr
      obtain ⟨c, hc, hprop⟩ := hcr
      simp only [Bool.and_eq_true, decide_eq_true_eq] at hprop
      exact hno c hc ⟨hprop.1.1, hprop.1.2, hprop.2⟩
    rw [List.get?_eq_getElem?] at hget
    simp [CapabilitySpace.revoke, hpos, hget, hcr]
  · intro h
    have hp := find?_none_position _ _ h
    simp [CapabilitySpace.revoke, hp]

/-- C4 (amended) witness: a space holding only a revoke-bit-free
capability with id 5 fails `revoke(5)` with `InsufficientRights`. -/
theorem C4_amended_witness :
    CapabilitySpace.revoke ⟨[⟨5, .Memory, ⟨true, false, false, false, false⟩, 1, 0⟩]⟩ 5 =
      (.error .InsufficientRights, ⟨[⟨5, .Memory, ⟨true, false, false, false, false⟩, 1, 0⟩]⟩) :=
  (C4_amended ⟨[⟨5, .Memory, ⟨true, false, false, false, false⟩, 1, 0⟩]⟩ 5).1
    ⟨5, .Memory, ⟨true, false, false, false, false⟩, 1, 0⟩ (by decide) (by decide)

/-! ## Claim C5 -/

/-- C5 (claim as stated is false): a space holding a Memory capability
with read/write/execute but *no* grant bit still answers `check` `true`
for a request consisting of the grant bit alone — the held capability
dominates the request on no account of grant/revoke, so the claimed
"every right bit" domination fails. -/
theorem C5_counterexample :
    CapabilitySpace.check ⟨[⟨1, .Memory, ⟨true, true, true, false, false⟩, 0, 0⟩]⟩
      .Memory ⟨false, false, false, true, false⟩ = true ∧
    (∀ c ∈ (⟨[⟨1, .Memory, ⟨true, true, true, false, false⟩, 0, 0⟩]⟩ :
        CapabilitySpace).capabilities,
      ¬ (c.typ = .Memory ∧
         ((false : Bool) = true → c.rights.read = true) ∧
         ((false : Bool) = true → c.rights.write = true) ∧
         ((false : Bool) = true → c.rights.execute = true) ∧
         ((true : Bool) = true → c.rights.grant = true) ∧
         ((false : Bool) = true → c.rights.revoke = true))) := by
  decide

/-- C5 (amended): `check(T, R)` returns true iff some held capability has
type `T` and dominates `R` on the read, write and execute bits; the grant
and revoke bits are not compared at all. -/
theorem C5_amended :
    ∀ (cs : CapabilitySpace) (typ : CapabilityType) (R : CapabilityRights),
    cs.check typ R = true ↔
      ∃ c ∈ cs.capabilities, c.typ = typ ∧
        (R.read = true → c.rights.read = true) ∧
        (R.write = true → c.rights.write = true) ∧
        (R.execute = true → c.rights.execute = true) := by
  intro cs typ R
  rw [CapabilitySpace.check, List.any_eq_true]
  apply exists_congr
  intro c
  simp only [Bool.and_eq_true, decide_eq_true_eq, bool_ge_iff]
  tauto

/-- C5 (amended) witness: the two-sided characterization at a concrete
space and request. -/
theorem C5_amended_witness :
    CapabilitySpace.check ⟨[⟨1, .IPC, ⟨true, true, false, false, false⟩, 0, 0⟩]⟩
      .IPC ⟨true, false, false, false, true⟩ = true :=
  (C5_amended ⟨[⟨1, .IPC, ⟨true, true, false, false, false⟩, 0, 0⟩]⟩
      .IPC ⟨true, false, false, false, true⟩).mpr
    ⟨⟨1, .IPC, ⟨true, true, false, false, false⟩, 0, 0⟩, by decide, by decide, by decide,
     by decide, by decide⟩


/-! ## Claim C7 -/

/-- C7 (the code contradicts the claim): the timeout-bounded polling path
returns the front message *without removing it* — `wait_for_message`
takes `&self` and `try_receive` clones the mailbox front, so the queue
returned alongside the message is exactly the input queue, and an
immediately following `receive` yields the same message again. -/
theorem C7_polling_no_pop :
    (let m : Message := ⟨7, .Data, 1, 0, none, 0, ⟨0, false, false⟩⟩
     let q : MessageQueue := ⟨4, [(0, [m])], [], ⟨0, 0, 0⟩⟩
     MessageQueue.wait_for_message q 0 5 = (.ok m, q) ∧
     (q.receive 0 0).fst = .ok m) := by
  decide

/-! ## Claim C8 -/

/-- C8 (claim as stated is false): after stocking the 4KB free-list
bucket by freeing a page, `allocate(5, Data, …)` succeeds and the
returned region's size is 5 — not rounded up to the 4096-byte page
size. -/
theorem C8_counterexample :
    ((MemoryManager.free (MemoryManager.new 4096)
        ⟨8192, 4096, .Data, ⟨true, true, false, false, true, false, false⟩, 0, 0, 0⟩).snd.allocate
      5 .Data ⟨true, true, false, false, true, false, false⟩).fst =
      .ok ⟨8192, 5, .Data, ⟨true, true, false, false, true, false, false⟩, 0, 0, 0⟩ ∧
    ¬ (5 % 4096 = 0) := by
  decide

/-- C8 (amended): `allocate` performs no rounding at all — on success the
returned region's size equals the requested size exactly (so tracked
region sizes are page-aligned only if their requests were); only
`map_device` rounds its size up with `align_up`. -/
theorem C8_amended :
    (∀ (mm : MemoryManager) (size : Nat) (typ : RegionType) (fl : ProtectionFlags)
       (r : MemoryRegion) (mm' : MemoryManager),
      mm.allocate size typ fl = (.ok r, mm') → r.size = size) ∧
    (∀ (mm : MemoryManager) (pa size : Nat) (fl : ProtectionFlags)
       (r : MemoryRegion) (mm' : MemoryManager),
      mm.map_device pa size fl = (.ok r, mm') → r.size = mm.align_up size) := by
  constructor
  · intro mm size typ fl r mm' h
    simp only [MemoryManager.allocate] at h
    cases h1 : (if size ≤ mm.page_size then mm.preallocated.head? else none) with
    | some addr =>
      simp only [h1, MemoryManager.create_region, Prod.ext_iff, Except.ok.injEq] at h
      rw [← h.1]
    | none =>
      simp only [h1] at h
      cases h2 : mm.allocate_from_free_list size with
      | some pr =>
        simp only [h2, MemoryManager.create_region, Prod.ext_iff, Except.ok.injEq] at h
        rw [← h.1]
      | none =>
        simp only [h2] at h
        cases h3 : (if HUGE_PAGE_SIZE ≤ size then mm.allocate_huge_page size else none) with
        | some pr =>
          simp only [h3, MemoryManager.create_region, Prod.ext_iff, Except.ok.injEq] at h
          rw [← h.1]
        | none =>
          simp only [h3, MemoryManager.find_free_region] at h
          simp [Prod.ext_iff] at h
  · intro mm pa size fl r mm' h
    simp only [MemoryManager.map_device, Prod.ext_iff, Except.ok.injEq] at h
    rw [← h.1]

/-- C8 (amended) witness: the unrounded size observed at a concrete
successful allocation. -/
theorem C8_amended_witness :
    (⟨8192, 5, .Data, ⟨true, true, false, false, true, false, false⟩, 0, 0, 0⟩ :
      MemoryRegion).size = 5 :=
  C8_amended.1
    (MemoryManager.free (MemoryManager.new 4096)
      ⟨8192, 4096, .Data, ⟨true, true, false, false, true, false, false⟩, 0, 0, 0⟩).snd
    5 .Data ⟨true, true, false, false, true, false, false⟩
    ⟨8192, 5, .Data, ⟨true, true, false, false, true, false, false⟩, 0, 0, 0⟩
    ((MemoryManager.free (MemoryManager.new 4096)
      ⟨8192, 4096, .Data, ⟨true, true, false, false, true, false, false⟩, 0, 0, 0⟩).snd.allocate
      5 .Data ⟨true, true, false, false, true, false, false⟩).snd
    (by decide)

/-! ## Claim C9 -/

/-- C9 (claim as stated is false): allocate(5000) is served from the 16KB
bucket, but `free` only returns a region to a bucket on an *exact* size
match — 5000 matches none, so the page is lost to the region list and the
identical second `allocate(5000)` fails with `OutOfMemory`. -/
theorem C9_counterexample :
    (let fl : ProtectionFlags := ⟨true, true, false, false, true, false, false⟩
     let mm1 := (MemoryManager.free (MemoryManager.new 4096)
       ⟨4096, 16384, .Data, fl, 0, 0, 0⟩).snd
     let a1 := mm1.allocate 5000 .Data fl
     let r1 : MemoryRegion := ⟨4096, 5000, .Data, fl, 0, 0, 0⟩
     a1.fst = .ok r1 ∧
     (a1.snd.free r1).fst = .ok () ∧
     ((a1.snd.free r1).snd.allocate 5000 .Data fl).fst = .error .OutOfMemory) := by
  decide

/-! ## Claim C10 -/

/-- C10: a non-signal message with the nonblocking flag set is always
accepted — the capacity test is skipped — and is appended to the
receiver's mailbox, so mailbox length is not bounded by the configured
capacity. -/
theorem C10_nonblocking_send :
    ∀ (q : MessageQueue) (msg : Message),
    msg.typ ≠ .Signal → msg.flags.nonblocking = true →
    (q.send msg).fst = .ok () ∧
    btLookup (q.send msg).snd.queues msg.receiver =
      some (((btLookup q.queues msg.receiver).getD []) ++ [msg]) := by
  intro q msg hsig hnb
  have hcap : ¬ (q.capacity ≤ ((btLookup q.queues msg.receiver).getD []).length ∧
      msg.flags.nonblocking = false) := by
    rintro ⟨-, h2⟩
    rw [hnb] at h2
    exact absurd h2 (by decide)
  constructor
  · simp [MessageQueue.send, hsig, hcap]
  · have hq : (q.send msg).snd.queues =
        btInsert
          (if (btLookup q.queues msg.receiver).isSome then q.queues
           else btInsert q.queues msg.receiver [])
          msg.receiver (((btLookup q.queues msg.receiver).getD []) ++ [msg]) := by
      simp [MessageQueue.send, hsig, hcap]
    rw [hq, btLookup_insert]

/-- C10 witness: a mailbox already at capacity 1 still accepts a
nonblocking message and grows to length 2. -/
theorem C10_witness :
    ((⟨1, [(2, [⟨1, .Data, 3, 2, none, 0, ⟨0, false, false⟩⟩])], [], ⟨0, 0, 0⟩⟩ :
        MessageQueue).send ⟨2, .Data, 3, 2, none, 0, ⟨0, true, false⟩⟩).fst = .ok () ∧
    btLookup ((⟨1, [(2, [⟨1, .Data, 3, 2, none, 0, ⟨0, false, false⟩⟩])], [], ⟨0, 0, 0⟩⟩ :
        MessageQueue).send ⟨2, .Data, 3, 2, none, 0, ⟨0, true, false⟩⟩).snd.queues 2 =
      some [⟨1, .Data, 3, 2, none, 0, ⟨0, false, false⟩⟩,
            ⟨2, .Data, 3, 2, none, 0, ⟨0, true, false⟩⟩] ∧
    (1 : Nat) < 2 := by
  have h := C10_nonblocking_send
    ⟨1, [(2, [⟨1, .Data, 3, 2, none, 0, ⟨0, false, false⟩⟩])], [], ⟨0, 0, 0⟩⟩
    ⟨2, .Data, 3, 2, none, 0, ⟨0, true, false⟩⟩ (by decide) rfl
  exact ⟨h.1, h.2.trans (by decide), by decide⟩

/-! ## Claim C6 -/

/-- A non-signal send that passes the capacity test succeeds and appends
to the receiver's mailbox, preserving the configured capacity. -/
theorem send_ok_mbox (q : MessageQueue) (msg : Message)
    (hsig : msg.typ ≠ .Signal)
    (hroom : ((btLookup q.queues msg.receiver).getD []).length < q.capacity ∨
      msg.flags.nonblocking = true) :
    (q.send msg).fst = .ok () ∧
    btLookup (q.send msg).snd.queues msg.receiver =
      some (((btLookup q.queues msg.receiver).getD []) ++ [msg]) ∧
    (q.send msg).snd.capacity = q.capacity := by
  have hcap : ¬ (q.capacity ≤ ((btLookup q.queues msg.receiver).getD []).length ∧
      msg.flags.nonblocking = false) := by
    rintro ⟨hle, hnb⟩
    rcases hroom with hlt | htrue
    · exact absurd hle (Nat.not_le_of_lt hlt)
    · rw [htrue] at hnb; exact absurd hnb (by decide)
  refine ⟨by simp [MessageQueue.send, hsig, hcap], ?_, by simp [MessageQueue.send, hsig, hcap]⟩
  have hq : (q.send msg).snd.queues =
      btInsert
        (if (btLookup q.queues msg.receiver).isSome then q.queues
         else btInsert q.queues msg.receiver [])
        msg.receiver (((btLookup q.queues msg.receiver).getD []) ++ [msg]) := by
    simp [MessageQueue.send, hsig, hcap]
  rw [hq, btLookup_insert]

/-- A signal send pushes to the front of the receiver's mailbox,
unconditionally. -/
theorem send_signal_front (q : MessageQueue) (msg : Message)
    (hsig : msg.typ = .Signal) :
    (q.send msg).fst = .ok () ∧
    btLookup (q.send msg).snd.queues msg.receiver =
      some (msg :: ((btLookup q.queues msg.receiver).getD [])) ∧
    (q.send msg).snd.capacity = q.capacity := by
  refine ⟨by simp [MessageQueue.send, hsig, MessageQueue.send_signal], ?_,
    by simp [MessageQueue.send, hsig, MessageQueue.send_signal]⟩
  have hq : (q.send msg).snd.queues =
      btInsert q.queues msg.receiver (msg :: ((btLookup q.queues msg.receiver).getD [])) := by
    simp [MessageQueue.send, hsig, MessageQueue.send_signal]
  rw [hq, btLookup_insert]

/-- A receive with a non-empty mailbox pops the front message (any
timeout), leaving the rest of that mailbox. -/
theorem receive_pop (q : MessageQueue) (c : TaskId) (t : Nat) (m : Message)
    (rest : List Message) (h : btLookup q.queues c = some (m :: rest)) :
    (q.receive c t).fst = .ok m ∧
    btLookup (q.receive c t).snd.queues c = some rest := by
  refine ⟨by simp [MessageQueue.receive, h], ?_⟩
  have hq : (q.receive c t).snd.queues = btInsert q.queues c rest := by
    simp [MessageQueue.receive, h]
  rw [hq, btLookup_insert]

/-- C6: with the receiver's mailbox initially empty and room for three
messages, sending non-signal M1, M2, M3 in that order and receiving
three times (receiver as current task) yields M1, M2, M3 in order; and a
Signal sent after M1 and M2 is returned by the first receive instead. -/
theorem C6_ipc_ordering :
    ∀ (q : MessageQueue) (r : TaskId) (m1 m2 m3 sig : Message) (t0 t1 t2 t3 : Nat),
    (btLookup q.queues r).getD [] = [] →
    3 ≤ q.capacity →
    m1.typ ≠ .Signal → m2.typ ≠ .Signal → m3.typ ≠ .Signal →
    m1.receiver = r → m2.receiver = r → m3.receiver = r →
    sig.typ = .Signal → sig.receiver = r →
    (q.send m1).fst = .ok () ∧
    ((q.send m1).snd.send m2).fst = .ok () ∧
    (((q.send m1).snd.send m2).snd.send m3).fst = .ok () ∧
    (((((q.send m1).snd.send m2).snd.send m3).snd).receive r t0).fst = .ok m1 ∧
    ((((((q.send m1).snd.send m2).snd.send m3).snd).receive r t0).snd.receive r t1).fst = .ok m2 ∧
    (((((((q.send m1).snd.send m2).snd.send m3).snd).receive r t0).snd.receive r t1).snd.receive r t2).fst = .ok m3 ∧
    (((((q.send m1).snd.send m2).snd).send sig).snd.receive r t3).fst = .ok sig := by
  intro q r m1 m2 m3 sig t0 t1 t2 t3 h0 hcap h1 h2 h3 hr1 hr2 hr3 hs hsr
  have s1 := send_ok_mbox q m1 h1 (by
    rw [hr1, h0]
    left
    simp only [List.length_nil]
    omega)
  rw [hr1, h0] at s1
  simp only [List.nil_append] at s1
  have s2 := send_ok_mbox (q.send m1).snd m2 h2 (by
    rw [hr2, s1.2.1]
    left
    simp only [Option.getD_some, List.length_cons, List.length_nil]
    rw [s1.2.2]; omega)
  rw [hr2, s1.2.1] at s2
  simp only [Option.getD_some, List.cons_append, List.nil_append] at s2
  have s3 := send_ok_mbox ((q.send m1).snd.send m2).snd m3 h3 (by
    rw [hr3, s2.2.1]
    left
    simp only [Option.getD_some, List.length_cons, List.length_nil]
    rw [s2.2.2, s1.2.2]; omega)
  rw [hr3, s2.2.1] at s3
  simp only [Option.getD_some, List.cons_append, List.nil_append] at s3
  have p1 := receive_pop (((q.send m1).snd.send m2).snd.send m3).snd r t0 m1 [m2, m3] s3.2.1
  have p2 := receive_pop ((((q.send m1).snd.send m2).snd.send m3).snd.receive r t0).snd r t1 m2 [m3] p1.2
  have p3 := receive_pop (((((q.send m1).snd.send m2).snd.send m3).snd.receive r t0).snd.receive r t1).snd r t2 m3 [] p2.2
  have ssig := send_signal_front ((q.send m1).snd.send m2).snd sig hs
  rw [hsr, s2.2.1] at ssig
  simp only [Option.getD_some] at ssig
  have psig := receive_pop (((q.send m1).snd.send m2).snd.send sig).snd r t3 sig [m1, m2] ssig.2.1
  exact ⟨s1.1, s2.1, s3.1, p1.1, p2.1, p3.1, psig.1⟩

/-- C6 witness: the full scenario at concrete messages through a capacity
1024 queue. -/
theorem C6_witness :
    (let q : MessageQueue := ⟨1024, [], [], ⟨0, 0, 0⟩⟩
     let m1 : Message := ⟨1, .Data, 5, 9, none, 0, ⟨0, false, false⟩⟩
     let m2 : Message := ⟨2, .Data, 5, 9, none, 0, ⟨0, false, false⟩⟩
     let m3 : Message := ⟨3, .Stream, 5, 9, none, 0, ⟨0, false, false⟩⟩
     let sig : Message := ⟨4, .Signal, 5, 9, none, 0, ⟨0, false, false⟩⟩
     (((((q.send m1).snd.send m2).snd.send m3).snd).receive 9 0).fst = .ok m1 ∧
     ((((((q.send m1).snd.send m2).snd.send m3).snd).receive 9 0).snd.receive 9 0).fst = .ok m2 ∧
     (((((((q.send m1).snd.send m2).snd.send m3).snd).receive 9 0).snd.receive 9 0).snd.receive 9 0).fst = .ok m3 ∧
     (((((q.send m1).snd.send m2).snd).send sig).snd.receive 9 0).fst = .ok sig) := by
  have h := C6_ipc_ordering ⟨1024, [], [], ⟨0, 0, 0⟩⟩ 9
    ⟨1, .Data, 5, 9, none, 0, ⟨0, false, false⟩⟩
    ⟨2, .Data, 5, 9, none, 0, ⟨0, false, false⟩⟩
    ⟨3, .Stream, 5, 9, none, 0, ⟨0, false, false⟩⟩
    ⟨4, .Signal, 5, 9, none, 0, ⟨0, false, false⟩⟩
    0 0 0 0 rfl (by decide) (by decide) (by decide) (by decide) rfl rfl rfl rfl rfl
  exact ⟨h.2.2.2.1, h.2.2.2.2.1, h.2.2.2.2.2.1, h.2.2.2.2.2.2⟩


/-! ## Claim C2 (amended): scheduler pop-loop lemmas -/

theorem popMax_eq_none_iff (ts : List Task) : popMax ts = none ↔ ts = [] := by
  cases ts with
  | nil => simp [popMax]
  | cons x xs =>
    simp only [popMax]
    cases popMax xs with
    | none => simp
    | some pr =>
      obtain ⟨m, r⟩ := pr
      dsimp only
      split_ifs <;> simp

theorem popMax_perm (ts : List Task) (t : Task) (rest : List Task)
    (h : popMax ts = some (t, rest)) : ts.Perm (t :: rest) := by
  induction ts generalizing t rest with
  | nil => simp [popMax] at h
  | cons x xs ih =>
    simp only [popMax] at h
    cases hx : popMax xs with
    | none =>
      rw [hx] at h
      have hxs : xs = [] := (popMax_eq_none_iff xs).mp hx
      simp only [Option.some.injEq, Prod.mk.injEq] at h
      rw [hxs, ← h.1, ← h.2]
    | some pr =>
      obtain ⟨m, mrest⟩ := pr
      rw [hx] at h
      dsimp only at h
      split_ifs at h with hle
      · simp only [Option.some.injEq, Prod.mk.injEq] at h
        rw [← h.1, ← h.2]
      · simp only [Option.some.injEq, Prod.mk.injEq] at h
        have hperm := ih m mrest hx
        rw [← h.1, ← h.2]
        exact (hperm.cons x).trans (List.Perm.swap m x mrest)

theorem popMax_min (ts : List Task) (t : Task) (rest : List Task)
    (h : popMax ts = some (t, rest)) :
    ∀ u ∈ ts, t.priority.toNat ≤ u.priority.toNat := by
  induction ts generalizing t rest with
  | nil => simp [popMax] at h
  | cons x xs ih =>
    simp only [popMax] at h
    cases hx : popMax xs with
    | none =>
      rw [hx] at h
      have hxs : xs = [] := (popMax_eq_none_iff xs).mp hx
      simp only [Option.some.injEq, Prod.mk.injEq] at h
      intro u hu
      rw [hxs] at hu
      simp only [List.mem_singleton] at hu
      rw [← h.1, hu]
    | some pr =>
      obtain ⟨m, mrest⟩ := pr
      rw [hx] at h
      dsimp only at h
      split_ifs at h with hle
      · simp only [Option.some.injEq, Prod.mk.injEq] at h
        intro u hu
        rcases List.mem_cons.mp hu with hux | hux
        · rw [← h.1, hux]
        · exact le_trans (h.1 ▸ hle) (ih m mrest hx u hux)
      · simp only [Option.some.injEq, Prod.mk.injEq] at h
        intro u hu
        rcases List.mem_cons.mp hu with hux | hux
        · rw [← h.1, hux]
          exact le_of_not_le (h.1 ▸ hle)
        · exact h.1 ▸ ih m mrest hx u hux

theorem priority_toNat_eq_zero (p : Priority) (h : p.toNat = 0) : p = .Realtime := by
  cases p <;> first | rfl | simp [Priority.toNat] at h

/-- If the affinity map is empty and a Ready Realtime task is in the
pool, the pop loop dispatches a Realtime task (given enough fuel). -/
theorem schedLoop_realtime :
    ∀ (fuel : Nat) (s : Scheduler) (now cpu : Nat),
    s.cpu_affinity = [] →
    s.tasks.length ≤ fuel →
    (∃ t ∈ s.tasks, t.state = .Ready ∧ t.priority = .Realtime) →
    ∃ t', (Scheduler.schedLoop now cpu fuel s).fst = some t' ∧
      t'.priority = .Realtime := by
  intro fuel
  induction fuel with
  | zero =>
    intro s now cpu _ hlen hex
    obtain ⟨u, hu, -, -⟩ := hex
    rw [Nat.le_zero, List.length_eq_zero] at hlen
    rw [hlen] at hu
    exact absurd hu (List.not_mem_nil u)
  | succ n ih =>
    intro s now cpu haff hlen hex
    obtain ⟨u, hu, hus, hup⟩ := hex
    have hne : s.tasks ≠ [] := by
      intro h
      rw [h] at hu
      exact absurd hu (List.not_mem_nil u)
    obtain ⟨t, rest, hpop⟩ : ∃ t rest, popMax s.tasks = some (t, rest) := by
      cases hp : popMax s.tasks with
      | none => exact absurd ((popMax_eq_none_iff s.tasks).mp hp) hne
      | some pr =>
        obtain ⟨a, b⟩ := pr
        exact ⟨a, b, rfl⟩
    have hperm := popMax_perm s.tasks t rest hpop
    have hmin := popMax_min s.tasks t rest hpop
    by_cases hts : t.state = TaskState.Ready
    · have htp : t.priority = .Realtime := by
        apply priority_toNat_eq_zero
        have h1 := hmin u hu
        rw [hup] at h1
        have h0 : t.priority.toNat ≤ 0 := by simpa [Priority.toNat] using h1
        exact Nat.le_zero.mp h0
      have hb : btLookup s.cpu_affinity t.id = none := by rw [haff]; rfl
      refine ⟨{ t with
          quantum := Scheduler.calculate_quantum { s with tasks := rest } t now cpu
          state := .Running
          last_run := now
          last_cpu := some cpu
          switches := t.switches + 1 }, ?_, by simpa using htp⟩
      simp [Scheduler.schedLoop, hpop, hts, hb, Scheduler.dispatch]
    · have hrec := ih { s with tasks := rest } now cpu (by simpa using haff)
        (by
          have hlen2 : s.tasks.length = rest.length + 1 := by
            simpa using hperm.length_eq
          simp only []
          omega)
        (by
          refine ⟨u, ?_, hus, hup⟩
          have hmem : u ∈ t :: rest := hperm.mem_iff.mp hu
          rcases List.mem_cons.mp hmem with hut | hur
          · exact absurd (hut ▸ hus) hts
          · simpa using hur)
      obtain ⟨t', ht', htp'⟩ := hrec
      refine ⟨t', ?_, htp'⟩
      simp only [Scheduler.schedLoop, hpop]
      rw [if_neg hts]
      exact ht'

/-- C2 (amended): `add_task` puts every task, Realtime included, into the
priority heap and never the realtime queue; provided the realtime queue
is empty, no current task is Running with unexpired quantum, and the
affinity map is empty, `schedule()` returns a Realtime task whenever one
is Ready. -/
theorem C2_amended :
    ∀ (s : Scheduler) (now cpu : Nat),
    (∀ (task : Task), (s.add_task task).snd.realtime_queue = s.realtime_queue) ∧
    (s.realtime_queue = [] →
     s.cpu_affinity = [] →
     (∀ c, s.current = some c → c.state = .Running → c.quantum ≤ wrapSub now c.last_run) →
     (∃ t ∈ s.tasks, t.state = .Ready ∧ t.priority = .Realtime) →
     ∃ t', (s.schedule now cpu).fst = some t' ∧ t'.priority = .Realtime) := by
  intro s now cpu
  constructor
  · intro task
    simp [Scheduler.add_task]
  · intro hrt haff hcur hex
    simp only [Scheduler.schedule, hrt]
    cases hc : s.current with
    | none =>
      exact schedLoop_realtime s.tasks.length s now cpu haff le_rfl hex
    | some c =>
      dsimp only
      by_cases hrun : c.state = TaskState.Running
      · rw [if_pos hrun]
        have hq : c.quantum ≤ wrapSub now c.last_run := hcur c hc hrun
        rw [if_pos hq]
        obtain ⟨u, hu, hus, hup⟩ := hex
        exact schedLoop_realtime _ _ now cpu (by simpa using haff) le_rfl
          ⟨u, by simp [hu], hus, hup⟩
      · rw [if_neg hrun]
        exact schedLoop_realtime _ _ now cpu (by simpa using haff) le_rfl hex

/-- C2 (amended) witness: a single Ready Realtime task in the pool, no
current task, empty affinity map — `schedule` dispatches it. -/
theorem C2_amended_witness :
    ∃ t', ((⟨[⟨1, .Ready, .Realtime, 0, 0, 0, 0, ⟨[]⟩, none, 0⟩],
        none, 100, [], [], ⟨0, 0, 0⟩⟩ : Scheduler).schedule 0 0).fst = some t' ∧
      t'.priority = .Realtime :=
  (C2_amended ⟨[⟨1, .Ready, .Realtime, 0, 0, 0, 0, ⟨[]⟩, none, 0⟩],
      none, 100, [], [], ⟨0, 0, 0⟩⟩ 0 0).2 rfl rfl
    (fun c hc => nomatch hc)
    ⟨⟨1, .Ready, .Realtime, 0, 0, 0, 0, ⟨[]⟩, none, 0⟩, by decide, rfl, rfl⟩


/-! ## Claim C9 (amended): free-list round-trip lemmas -/

theorem getElem?_set_self {α : Type} (l : List α) (i : Nat) (x y : α)
    (h : l[i]? = some x) : (l.set i y)[i]? = some y := by
  induction l generalizing i with
  | nil => simp at h
  | cons a as ih =>
    cases i with
    | zero => simp [List.set]
    | succ n => simpa [List.set] using ih n (by simpa using h)

theorem map_size_set (ls : List FreeList) (i : Nat) (l : FreeList) (ps : List Nat)
    (h : ls[i]? = some l) :
    (ls.set i ⟨l.size, ps⟩).map FreeList.size = ls.map FreeList.size := by
  induction ls generalizing i with
  | nil => simp at h
  | cons a as ih =>
    cases i with
    | zero =>
      simp only [List.getElem?_cons_zero, Option.some.injEq] at h
      simp [List.set, h]
    | succ n =>
      simp only [List.getElem?_cons_succ] at h
      simp [List.set, ih n h]

theorem position_size_le (ls : List FreeList) (size : Nat) :
    position (fun x => size ≤ x.size) ls =
      position (fun n => size ≤ n) (ls.map FreeList.size) := by
  induction ls with
  | nil => rfl
  | cons x xs ih => simp [position, ih]

theorem position_size_eq (ls : List FreeList) (size : Nat) :
    position (fun x => x.size = size) ls =
      position (fun n => n = size) (ls.map FreeList.size) := by
  induction ls with
  | nil => rfl
  | cons x xs ih => simp [position, ih]

/-- In a strictly size-sorted bucket list containing an exact-size
bucket, the first bucket whose class covers the request *is* the
exact-size bucket. -/
theorem sorted_exact_position (ls : List FreeList) (size : Nat)
    (hs : (ls.map FreeList.size).Sorted (· < ·))
    (hex : ∃ l ∈ ls, l.size = size) :
    ∃ j l, position (fun x => x.size = size) ls = some j ∧
      position (fun x => size ≤ x.size) ls = some j ∧
      ls[j]? = some l ∧ l.size = size := by
  induction ls with
  | nil =>
    obtain ⟨l, hl, -⟩ := hex
    exact absurd hl (List.not_mem_nil l)
  | cons x xs ih =>
    rw [List.map_cons, List.sorted_cons] at hs
    obtain ⟨hlt, hs'⟩ := hs
    by_cases hx : x.size = size
    · exact ⟨0, x, by simp [position, hx], by simp [position, hx], by simp, hx⟩
    · obtain ⟨l, hl, hlsz⟩ := hex
      have hlx : l ≠ x := by
        intro h
        rw [h] at hlsz
        exact hx hlsz
      have hlxs : l ∈ xs := by
        rcases List.mem_cons.mp hl with h | h
        · exact absurd h hlx
        · exact h
      have hxslt : x.size < size := by
        have hm := hlt l.size (List.mem_map_of_mem FreeList.size hlxs)
        rwa [hlsz] at hm
      have hnle : ¬ (size ≤ x.size) := by omega
      obtain ⟨j, l', h1, h2, h3, h4⟩ := ih hs' ⟨l, hlxs, hlsz⟩
      refine ⟨j + 1, l', ?_, ?_, by simpa using h3, h4⟩
      · simp [position, hx, h1]
      · simp [position, hnle, h2]

/-- `allocate_from_free_list` changes only a bucket's page pool (and the
LRU cache): everything else, including the size classes, is preserved. -/
theorem affl_spec (mm : MemoryManager) (size addr : Nat) (mm1 : MemoryManager)
    (h : mm.allocate_from_free_list size = some (addr, mm1)) :
    mm1.preallocated = mm.preallocated ∧
    mm1.free_lists.map FreeList.size = mm.free_lists.map FreeList.size ∧
    mm1.page_size = mm.page_size := by
  simp only [MemoryManager.allocate_from_free_list] at h
  cases h1 : position (fun l => size ≤ l.size) mm.free_lists with
  | none => simp only [h1] at h; exact Option.noConfusion h
  | some i =>
    simp only [h1] at h
    cases h2 : mm.free_lists[i]? with
    | none => simp only [h2] at h; exact Option.noConfusion h
    | some l =>
      simp only [h2] at h
      cases h3 : l.pages with
      | nil => simp only [h3] at h; exact Option.noConfusion h
      | cons p rest =>
        simp only [h3, Option.some.injEq, Prod.mk.injEq] at h
        rw [← h.2]
        exact ⟨rfl, map_size_set mm.free_lists i l rest h2, rfl⟩

/-- `allocate_huge_page` never touches the free lists or the pre-warmed
pool. -/
theorem ahp_spec (mm : MemoryManager) (size addr : Nat) (mm2 : MemoryManager)
    (h : mm.allocate_huge_page size = some (addr, mm2)) :
    mm2.preallocated = mm.preallocated ∧
    mm2.free_lists = mm.free_lists ∧
    mm2.page_size = mm.page_size := by
  simp only [MemoryManager.allocate_huge_page] at h
  cases h1 : btLookup mm.huge_pages (align_up size HUGE_PAGE_SIZE) with
  | none => simp only [h1] at h; exact Option.noConfusion h
  | some pages =>
    simp only [h1] at h
    cases pages with
    | nil => simp at h
    | cons p rest =>
      simp only [Option.some.injEq, Prod.mk.injEq] at h
      rw [← h.2]
      exact ⟨rfl, rfl, rfl⟩

/-- With an empty pre-warmed pool, a successful `allocate` records the
raw requested size and type and preserves the pool, the bucket size
classes, and the page size. -/
theorem allocate_spec_nil_prealloc (mm : MemoryManager) (size : Nat)
    (typ : RegionType) (fl : ProtectionFlags) (r : MemoryRegion) (mm1 : MemoryManager)
    (hpre : mm.preallocated = [])
    (h : mm.allocate size typ fl = (.ok r, mm1)) :
    r.size = size ∧ r.typ = typ ∧
    mm1.preallocated = [] ∧
    mm1.free_lists.map FreeList.size = mm.free_lists.map FreeList.size ∧
    mm1.page_size = mm.page_size := by
  have h0 : (if size ≤ mm.page_size then mm.preallocated.head? else none) = none := by
    rw [hpre]
    split_ifs <;> rfl
  simp only [MemoryManager.allocate, h0] at h
  cases h2 : mm.allocate_from_free_list size with
  | some pr =>
    obtain ⟨addr, mmf⟩ := pr
    simp only [h2] at h
    obtain ⟨hp, hf, hs⟩ := affl_spec mm size addr mmf h2
    simp only [MemoryManager.create_region, Prod.mk.injEq, Except.ok.injEq] at h
    obtain ⟨hr, hmm⟩ := h
    refine ⟨by rw [← hr], by rw [← hr], ?_, ?_, ?_⟩
    · rw [← hmm]
      show mmf.preallocated = []
      rw [hp, hpre]
    · rw [← hmm]
      exact hf
    · rw [← hmm]
      exact hs
  | none =>
    simp only [h2] at h
    cases h3 : (if HUGE_PAGE_SIZE ≤ size then mm.allocate_huge_page size else none) with
    | some pr =>
      obtain ⟨addr, mmh⟩ := pr
      simp only [h3] at h
      have hh : mm.allocate_huge_page size = some (addr, mmh) := by
        by_cases hhg : HUGE_PAGE_SIZE ≤ size
        · rwa [if_pos hhg] at h3
        · rw [if_neg hhg] at h3
          exact absurd h3 (by simp)
      obtain ⟨hp, hf, hs⟩ := ahp_spec mm size addr mmh hh
      simp only [MemoryManager.create_region, Prod.mk.injEq, Except.ok.injEq] at h
      obtain ⟨hr, hmm⟩ := h
      refine ⟨by rw [← hr], by rw [← hr], ?_, ?_, ?_⟩
      · rw [← hmm]
        show mmh.preallocated = []
        rw [hp, hpre]
      · rw [← hmm]
        rw [show ({ mmh with regions := mmh.regions ++
            [⟨addr, size, typ, applyTypeHints typ size fl, get_current_task, 0, 0⟩] } :
          MemoryManager).free_lists = mmh.free_lists from rfl, hf]
      · rw [← hmm]
        exact hs
    | none =>
      simp only [h3, MemoryManager.find_free_region] at h
      exact absurd h (by simp)

/-- `free` on a region whose size exactly matches a bucket pushes the
region's start address onto that bucket. -/
theorem free_exact_spec (mm : MemoryManager) (r : MemoryRegion) (j : Nat) (l : FreeList)
    (hpos : position (fun x => x.size = r.size) mm.free_lists = some j)
    (hget : mm.free_lists[j]? = some l) :
    mm.free r = (.ok (),
      { mm with free_lists := mm.free_lists.set j ⟨l.size, r.start :: l.pages⟩ }) := by
  simp [MemoryManager.free, hpos, hget]

/-- C9 (amended): when the requested size equals one of the free-list
bucket class sizes and the pre-warmed pool is empty, the round trip
holds: `free` returns the page to its exact-size bucket and the
identical second `allocate` succeeds from the free list with the very
same address. -/
theorem C9_amended :
    ∀ (mm : MemoryManager) (size : Nat) (typ : RegionType) (fl : ProtectionFlags)
      (r : MemoryRegion) (mm1 : MemoryManager),
    mm.preallocated = [] →
    (mm.free_lists.map FreeList.size).Sorted (· < ·) →
    size ∈ mm.free_lists.map FreeList.size →
    mm.allocate size typ fl = (.ok r, mm1) →
    (mm1.free r).fst = .ok () ∧
    ∃ r' mm3, (mm1.free r).snd.allocate size typ fl = (.ok r', mm3) ∧
      r'.start = r.start ∧ r'.size = size := by
  intro mm size typ fl r mm1 hpre hsort hmem halloc
  obtain ⟨hrsize, hrtyp, hpre1, hfl1, hps1⟩ :=
    allocate_spec_nil_prealloc mm size typ fl r mm1 hpre halloc
  have hmem1 : size ∈ mm1.free_lists.map FreeList.size := by rw [hfl1]; exact hmem
  have hsort1 : (mm1.free_lists.map FreeList.size).Sorted (· < ·) := by
    rw [hfl1]; exact hsort
  have hex1 : ∃ l ∈ mm1.free_lists, l.size = size := by
    obtain ⟨l, hl, hsz⟩ := List.mem_map.mp hmem1
    exact ⟨l, hl, hsz⟩
  obtain ⟨j, l, hpeq, hple, hget, hlsz⟩ := sorted_exact_position mm1.free_lists size hsort1 hex1
  have hpos_r : position (fun x => x.size = r.size) mm1.free_lists = some j := by
    rw [hrsize]; exact hpeq
  have hfree := free_exact_spec mm1 r j l hpos_r hget
  have hsnd : (mm1.free r).snd =
      { mm1 with free_lists := mm1.free_lists.set j ⟨l.size, r.start :: l.pages⟩ } := by
    rw [hfree]
  refine ⟨by rw [hfree], ?_⟩
  have hmain : ∀ (M : MemoryManager),
      M.preallocated = [] →
      position (fun x => size ≤ x.size) M.free_lists = some j →
      M.free_lists[j]? = some ⟨l.size, r.start :: l.pages⟩ →
      ∃ r' mm3, M.allocate size typ fl = (.ok r', mm3) ∧
        r'.start = r.start ∧ r'.size = size := by
    intro M hMpre hMple hMget
    have h0 : (if size ≤ M.page_size then M.preallocated.head? else none) = none := by
      rw [hMpre]
      split_ifs <;> rfl
    have haffl : M.allocate_from_free_list size =
        some (r.start,
          { M with
            free_lists := M.free_lists.set j ⟨l.size, l.pages⟩
            cache := btInsert M.cache size r.start }) := by
      simp [MemoryManager.allocate_from_free_list, hMple, hMget]
    have hfst : (M.allocate size typ fl).fst =
        .ok ⟨r.start, size, typ, applyTypeHints typ size fl, get_current_task, 0, 0⟩ := by
      simp only [MemoryManager.allocate, h0, haffl, MemoryManager.create_region]
    refine ⟨⟨r.start, size, typ, applyTypeHints typ size fl, get_current_task, 0, 0⟩,
      (M.allocate size typ fl).snd, ?_, rfl, rfl⟩
    rw [← hfst]
  rw [hsnd]
  apply hmain
  · show mm1.preallocated = []
    exact hpre1
  · show position (fun x => size ≤ x.size)
      (mm1.free_lists.set j ⟨l.size, r.start :: l.pages⟩) = some j
    rw [position_size_le, map_size_set mm1.free_lists j l (r.start :: l.pages) hget,
      ← position_size_le]
    exact hple
  · show (mm1.free_lists.set j ⟨l.size, r.start :: l.pages⟩)[j]? =
      some ⟨l.size, r.start :: l.pages⟩
    exact getElem?_set_self mm1.free_lists j l ⟨l.size, r.start :: l.pages⟩ hget


/-- C9 (amended) witness: allocate(4096)/free/allocate(4096) round-trips
through the 4KB bucket and returns the same page address. -/
theorem C9_amended_witness :
    (((MemoryManager.free (MemoryManager.new 4096)
        ⟨42, 4096, .Data, ⟨true, true, false, false, true, false, false⟩, 0, 0, 0⟩).snd.allocate
        4096 .Data ⟨true, true, false, false, true, false, false⟩).snd.free
        ⟨42, 4096, .Data, ⟨true, true, false, false, true, false, false⟩, 0, 0, 0⟩).fst = .ok () ∧
    ∃ r' mm3,
      ((((MemoryManager.free (MemoryManager.new 4096)
        ⟨42, 4096, .Data, ⟨true, true, false, false, true, false, false⟩, 0, 0, 0⟩).snd.allocate
        4096 .Data ⟨true, true, false, false, true, false, false⟩).snd.free
        ⟨42, 4096, .Data, ⟨true, true, false, false, true, false, false⟩, 0, 0, 0⟩).snd.allocate
        4096 .Data ⟨true, true, false, false, true, false, false⟩) = (.ok r', mm3) ∧
      r'.start = 42 ∧ r'.size = 4096 := by
  have h := C9_amended
    (MemoryManager.free (MemoryManager.new 4096)
      ⟨42, 4096, .Data, ⟨true, true, false, false, true, false, false⟩, 0, 0, 0⟩).snd
    4096 .Data ⟨true, true, false, false, true, false, false⟩
    ⟨42, 4096, .Data, ⟨true, true, false, false, true, false, false⟩, 0, 0, 0⟩
    ((MemoryManager.free (MemoryManager.new 4096)
      ⟨42, 4096, .Data, ⟨true, true, false, false, true, false, false⟩, 0, 0, 0⟩).snd.allocate
      4096 .Data ⟨true, true, false, false, true, false, false⟩).snd
    (by decide) (by decide) (by decide) (by decide)
  refine ⟨h.1, ?_⟩
  obtain ⟨r', mm3, ha, hs, hz⟩ := h.2
  exact ⟨r', mm3, ha, hs.trans rfl, hz⟩

end AetherOS
